import Mathlib

/-!
Shallow embedding of the lattice-machines dependency-fulfillment engine
(`src/lib.rs` of krhoda/lattice_machines).

Rust `HashMap<String, ()>` fields (`depends_on`, `required_by`, `fulfilled_by`)
are modelled as `List String` with insert-if-absent semantics; a key is a
member iff it is in the Rust map.  Rust `HashMap<String, Node>` collections
(`pending`, `fulfilled`) are modelled as association lists
`List (String × BasicNode α)` whose `insert` replaces an existing binding in
place.  The one behaviour of `std::collections::HashMap` that is *not*
determined by its contents — iteration order — is made explicit where the
source iterates a map (the `required_by` loop inside `fulfill`, lines
186-199): `fulfillStepWith` takes the enumeration order as a parameter, and
the default `fulfillStep` uses the stored (insertion) order.

Fallible Rust operations (`Result<_, ()>`) return `Option`/`Bool` success
flags paired with the mutated state, since errors in the source carry no
data and partial mutations made before an early `return Err(())` persist.
-/

set_option autoImplicit false

namespace LatticeMachines

/-- The `NodeType` trait (`src/lib.rs` lines 5-10): a payload exposes a
stable identifier and a completion test. -/
class NodeType (α : Type) where
  uuid : α → String
  is_completed : α → Bool

/-- Insert a key into a `HashMap<String, ()>`-style set: no change when the
key is already present (the Rust `insert` overwrites the unit value). -/
def insertKey (l : List String) (k : String) : List String :=
  if k ∈ l then l else l ++ [k]

/-- `HashMap<String, ()>::remove`: `none` when the key is absent, otherwise
the set without the key. -/
def removeKey? (l : List String) (k : String) : Option (List String) :=
  if k ∈ l then some (l.erase k) else none

/-- Lookup in an association list keyed by `String`
(`HashMap<String, V>::get`). -/
def findA? {β : Type} (l : List (String × β)) (k : String) : Option β :=
  match l with
  | [] => none
  | (k', v) :: rest => if k' == k then some v else findA? rest k

/-- `HashMap<String, V>::insert`: replace an existing binding in place,
otherwise append. -/
def insertA {β : Type} : List (String × β) → String → β → List (String × β)
  | [], k, v => [(k, v)]
  | (k', v') :: rest, k, v =>
    if k' == k then (k, v) :: rest else (k', v') :: insertA rest k v

/-- Drop the binding of a key from an association list. -/
def eraseA {β : Type} : List (String × β) → String → List (String × β)
  | [], _ => []
  | (k', v') :: rest, k => if k' == k then rest else (k', v') :: eraseA rest k

/-- `HashMap<String, V>::remove`: the removed value together with the map
without it, or `none` when the key is absent. -/
def removeA? {β : Type} (l : List (String × β)) (k : String) :
    Option (β × List (String × β)) :=
  match findA? l k with
  | none => none
  | some v => some (v, eraseA l k)

/-- `BasicNode` (`src/lib.rs` lines 35-43): a payload plus the three
relation sets. -/
structure BasicNode (α : Type) where
  base_data : α
  depends_on : List String
  required_by : List String
  fulfilled_by : List String
deriving DecidableEq

namespace BasicNode

variable {α : Type} [NodeType α]

/-- `BasicNode` forwards `uuid` to its payload (lines 45-48). -/
def uuid (n : BasicNode α) : String := NodeType.uuid n.base_data

/-- `BasicNode` forwards `is_completed` to its payload (lines 50-52). -/
def is_completed (n : BasicNode α) : Bool := NodeType.is_completed n.base_data

/-- `ReadNode::is_pending` (lines 30-32). -/
def is_pending (n : BasicNode α) : Bool :=
  !n.depends_on.isEmpty || !n.is_completed

/-- `ReadNode::new` (lines 56-73): build a node from a payload and the two
edge lists, inserting each id in order. -/
def new (t : α) (dep req : List String) : BasicNode α :=
  { base_data := t
    depends_on := dep.foldl insertKey []
    required_by := req.foldl insertKey []
    fulfilled_by := [] }

/-- `WriteNode::add_depends_on` (lines 104-106). -/
def add_depends_on (n : BasicNode α) (k : String) : BasicNode α :=
  { n with depends_on := insertKey n.depends_on k }

/-- `WriteNode::add_required_by` (lines 109-111). -/
def add_required_by (n : BasicNode α) (k : String) : BasicNode α :=
  { n with required_by := insertKey n.required_by k }

/-- `WriteNode::depend_fulfilled` (lines 113-121): move a key from
`depends_on` to `fulfilled_by`; error (`none`) when it is not there. -/
def depend_fulfilled (n : BasicNode α) (k : String) : Option (BasicNode α) :=
  match removeKey? n.depends_on k with
  | none => none
  | some d =>
    some { n with depends_on := d, fulfilled_by := insertKey n.fulfilled_by k }

/-- `BasicNode`'s `WriteNode::update` impl (lines 139-142): replace the
payload, always succeeding. -/
def update (n : BasicNode α) (t : α) : Option (BasicNode α) :=
  some { n with base_data := t }

end BasicNode

/-- `BasicLattice` (lines 366-369): the two node collections. -/
structure BasicLattice (α : Type) where
  pending : List (String × BasicNode α)
  fulfilled : List (String × BasicNode α)
deriving DecidableEq

/-- Outcome of `add_requirement`: `ok`/`notFound` mirror `Ok`/`Err`;
`unwrapFail` marks the two `.unwrap()` call sites (lines 337 and 355)
receiving an `Err`, which in Rust would panic. -/
inductive AddOutcome
  | ok
  | notFound
  | unwrapFail
deriving DecidableEq

namespace BasicLattice

variable {α : Type} [NodeType α]

/-- `LatMachine::new` for `BasicLattice` (lines 417-422). -/
def new : BasicLattice α := ⟨[], []⟩

/-- `LatMachine::is_completed` (lines 153-155). -/
def is_completed (m : BasicLattice α) : Bool := m.pending.isEmpty

/-- `LatMachine::append_pending` (lines 163-165). -/
def append_pending (m : BasicLattice α) (t : BasicNode α) : BasicLattice α :=
  { m with pending := insertA m.pending t.uuid t }

/-- `LatMachine::append_fulfilled` (lines 167-169). -/
def append_fulfilled (m : BasicLattice α) (t : BasicNode α) : BasicLattice α :=
  { m with fulfilled := insertA m.fulfilled t.uuid t }

/-- `LatMachine::append` (lines 171-177): file a node by `is_pending`. -/
def append (m : BasicLattice α) (t : BasicNode α) : BasicLattice α :=
  if t.is_pending then append_pending m t else append_fulfilled m t

/-- The `for (k, _) in r_map` loop of `fulfill` (lines 186-199), iterating
the removed node's `required_by` in the given enumeration order over the
pending map `p` (which no longer holds the removed node): each dependent
must be found in `p` and have the dependency on `key` satisfied; the ids
that thereby stop being pending are queued for the cascade.  The first
failure aborts with the mutations made so far kept (the Rust
`return Err(())` leaves `self` partially updated). -/
def satisfyLoop (key : String) :
    List String → List (String × BasicNode α) → List String →
    Bool × List (String × BasicNode α) × List String
  | [], p, casc => (true, p, casc)
  | k :: rest, p, casc =>
    match findA? p k with
    | none => (false, p, casc)
    | some x =>
      match x.depend_fulfilled key with
      | none => (false, p, casc)
      | some x' =>
        satisfyLoop key rest (insertA p k x')
          (if x'.is_pending then casc else casc ++ [x'.uuid])

/-- One non-recursive step of `fulfill` (lines 180-201): remove `key` from
`pending` (error when absent), run `satisfyLoop` over the removed node's
`required_by` — enumerated by `ordOf`, since the Rust `HashMap` fixes no
order — then insert the removed node into `fulfilled`.  Returns the success
flag, the mutated lattice, and the cascade queue. -/
def fulfillStepWith (ordOf : BasicNode α → List String)
    (m : BasicLattice α) (key : String) :
    Bool × BasicLattice α × List String :=
  match removeA? m.pending key with
  | none => (false, m, [])
  | some (target, p1) =>
    match satisfyLoop key (ordOf target) p1 [] with
    | (false, p2, _) => (false, ⟨p2, m.fulfilled⟩, [])
    | (true, p2, casc) => (true, ⟨p2, insertA m.fulfilled key target⟩, casc)

/-- `fulfillStepWith` at the stored (insertion) order of `required_by`. -/
def fulfillStep (m : BasicLattice α) (key : String) :
    Bool × BasicLattice α × List String :=
  fulfillStepWith (fun t => t.required_by) m key

/-- The depth-first cascade of `fulfill` (lines 203-208), defunctionalized
to a worklist: the recursive `self.fulfill(v)` calls on the cascade queue,
aborting on the first error, are the same as running the steps on
`casc ++ rest`.  `fuel` bounds the recursion; every step that continues
removes one node from `pending`, so `pending.length + 1` units never run
out (the `0` case is unreachable from `fulfill`). -/
def fulfillFuel : Nat → BasicLattice α → List String → Bool × BasicLattice α
  | 0, m, _ => (false, m)
  | _ + 1, m, [] => (true, m)
  | fuel + 1, m, k :: rest =>
    match fulfillStep m k with
    | (false, m1, _) => (false, m1)
    | (true, m1, casc) => fulfillFuel fuel m1 (casc ++ rest)

/-- `LatMachine::fulfill` (lines 180-213): the cascading-completion
algorithm. -/
def fulfill (m : BasicLattice α) (key : String) : Bool × BasicLattice α :=
  fulfillFuel (m.pending.length + 1) m [key]

/-- `LatMachine::update_value` (lines 250-270): replace the payload of a
pending node; when the updated node's payload `is_completed`, call
`fulfill` and propagate its result. -/
def update_value (m : BasicLattice α) (key : String) (u : α) :
    Bool × BasicLattice α :=
  match findA? m.pending key with
  | none => (false, m)
  | some t =>
    match t.update u with
    | none => (false, m)
    | some t1 =>
      let m1 : BasicLattice α := { m with pending := insertA m.pending key t1 }
      if t1.is_completed then fulfill m1 key else (true, m1)

/-- `LatMachine::update_required_by` (lines 273-293): `some true` when the
target is pending (blocking), `some false` when fulfilled, `none` when in
neither collection. -/
def update_required_by (m : BasicLattice α) (target is_required_by : String) :
    Option Bool × BasicLattice α :=
  match findA? m.pending target with
  | some t =>
    (some true,
      { m with pending := insertA m.pending target (t.add_required_by is_required_by) })
  | none =>
    match findA? m.fulfilled target with
    | none => (none, m)
    | some t =>
      (some false,
        { m with fulfilled := insertA m.fulfilled target (t.add_required_by is_required_by) })

/-- `LatMachine::update_depends_on` (lines 295-314): add the edge in place
when the target is pending; when fulfilled, remove it, add the edge and
re-file it via `append`. -/
def update_depends_on (m : BasicLattice α) (target dep : String) :
    Bool × BasicLattice α :=
  match findA? m.pending target with
  | some t =>
    (true, { m with pending := insertA m.pending target (t.add_depends_on dep) })
  | none =>
    match removeA? m.fulfilled target with
    | none => (false, m)
    | some (t, ful1) =>
      (true, append { m with fulfilled := ful1 } (t.add_depends_on dep))

/-- The second half of `add_requirement` (lines 333-360): locate the
requirer and add the `depends_on` edge, satisfying it at once when the
prerequisite is no longer blocking; `.unwrap()` sites are recorded as
`AddOutcome.unwrapFail`. -/
def addReqPhase2 (m1 : BasicLattice α) (req_id is_required : String)
    (is_still_required : Bool) : AddOutcome × BasicLattice α :=
  match findA? m1.pending req_id with
  | some req =>
    let req1 := req.add_depends_on is_required
    if is_still_required then
      (.ok, { m1 with pending := insertA m1.pending req_id req1 })
    else
      match req1.depend_fulfilled is_required with
      | none => (.unwrapFail, { m1 with pending := insertA m1.pending req_id req1 })
      | some req2 => (.ok, { m1 with pending := insertA m1.pending req_id req2 })
  | none =>
    if is_still_required then
      match removeA? m1.fulfilled req_id with
      | none => (.notFound, m1)
      | some (req, ful1) =>
        (.ok, append { m1 with fulfilled := ful1 } (req.add_depends_on is_required))
    else
      match findA? m1.fulfilled req_id with
      | none => (.notFound, m1)
      | some req =>
        let req1 := req.add_depends_on is_required
        match req1.depend_fulfilled is_required with
        | none => (.unwrapFail, { m1 with fulfilled := insertA m1.fulfilled req_id req1 })
        | some req2 => (.ok, { m1 with fulfilled := insertA m1.fulfilled req_id req2 })

/-- `LatMachine::add_requirement` (lines 316-363): wire the bidirectional
edge, first registering the back-edge on the prerequisite (recording
whether it still blocks), then running the requirer case split. -/
def add_requirement (m : BasicLattice α) (req_id is_required : String) :
    AddOutcome × BasicLattice α :=
  match findA? m.pending is_required with
  | some isReq =>
    addReqPhase2
      { m with pending := insertA m.pending is_required (isReq.add_required_by req_id) }
      req_id is_required true
  | none =>
    match findA? m.fulfilled is_required with
    | none => (.notFound, m)
    | some isReq =>
      addReqPhase2
        { m with fulfilled := insertA m.fulfilled is_required (isReq.add_required_by req_id) }
        req_id is_required false

/-- `BasicLattice::from_node_list` (lines 375-392): insert every node into
`pending`, collecting the ids of those not pending, then run `fulfill` on
each collected id, discarding each `Result`. -/
def from_node_list (nodes : List (BasicNode α)) : BasicLattice α :=
  let step := fun (acc : BasicLattice α × List String) (n : BasicNode α) =>
    (append_pending acc.1 n, if n.is_pending then acc.2 else acc.2 ++ [n.uuid])
  let s1 := nodes.foldl step (new, [])
  s1.2.foldl (fun s k => (fulfill s k).2) s1.1

end BasicLattice

/-- A concrete payload for witnesses and counterexamples: an identifier and
a completion flag, the minimal inhabitant of the `NodeType` contract. -/
structure P where
  pid : String
  done : Bool
deriving DecidableEq

instance : NodeType P := ⟨P.pid, P.done⟩


open BasicLattice

/-! ### Concrete nodes and lattices used by the claim theorems -/

/-- Node `Z`: incomplete payload, no prerequisites, required by `A`. -/
def zNode : BasicNode P := ⟨⟨"Z", false⟩, [], ["A"], []⟩

/-- Node `A`: incomplete payload, depends on `Z`. -/
def aNode : BasicNode P := ⟨⟨"A", false⟩, ["Z"], [], []⟩

/-- The lattice built from `[zNode, aNode]`: both nodes are pending, the
settling pass fulfills nothing. -/
def zaLattice : BasicLattice P := from_node_list [zNode, aNode]

/-- The result of `update_value(A, complete payload)` on `zaLattice`. -/
def zaUpdated : Bool × BasicLattice P := update_value zaLattice "A" ⟨"A", true⟩

/-- Node `X` for C9: complete, required by an id `Y` that is never part of
the lattice. -/
def xNode : BasicNode P := ⟨⟨"X", true⟩, [], ["Y"], []⟩

/-- Node `A` of the cascade chain: complete, required by `B`. -/
def chainA : BasicNode P := ⟨⟨"A", true⟩, [], ["B"], []⟩

/-- Node `B` of the cascade chain with an incomplete payload. -/
def chainB : BasicNode P := ⟨⟨"B", false⟩, ["A"], ["C"], []⟩

/-- Node `C` of the cascade chain with an incomplete payload. -/
def chainC : BasicNode P := ⟨⟨"C", false⟩, ["B"], [], []⟩

/-- The chain lattice A ← B ← C with incomplete B and C. -/
def chainLattice : BasicLattice P := ⟨[("A", chainA), ("B", chainB), ("C", chainC)], []⟩

/-- Node `B` of the cascade chain with a complete payload. -/
def chainB' : BasicNode P := ⟨⟨"B", true⟩, ["A"], ["C"], []⟩

/-- Node `C` of the cascade chain with a complete payload. -/
def chainC' : BasicNode P := ⟨⟨"C", true⟩, ["B"], [], []⟩

/-- The chain lattice A ← B ← C with complete payloads on B and C. -/
def chainLattice' : BasicLattice P := ⟨[("A", chainA), ("B", chainB'), ("C", chainC')], []⟩

/-- Node `A` for C7: complete, required by both `B` and `C`. -/
def forkA : BasicNode P := ⟨⟨"A", true⟩, [], ["B", "C"], []⟩

/-- Node `C` for C7: incomplete, depends on `A`. -/
def forkC : BasicNode P := ⟨⟨"C", false⟩, ["A"], [], []⟩

/-- The C7 lattice: `A` and `C` pending, `B` absent although `A`'s
`required_by` lists it (reachable, e.g. via `update_required_by`). -/
def forkLattice : BasicLattice P := ⟨[("A", forkA), ("C", forkC)], []⟩

/-- Node `B` for the C4 counterexample: complete, required by `A`. -/
def satB : BasicNode P := ⟨⟨"B", true⟩, [], ["A"], []⟩

/-- Node `A` for the C4 counterexample: incomplete, depends on `B`. -/
def satA : BasicNode P := ⟨⟨"A", false⟩, ["B"], [], []⟩

/-- The reachable C4 state: bulk construction settles `B` into `fulfilled`,
moving `B` into `A`'s `fulfilled_by`; then `update_depends_on(A, B)`
re-registers the already-satisfied dependency. -/
def overlapLattice : BasicLattice P :=
  (update_depends_on (from_node_list [satB, satA]) "A" "B").2

/-- Fulfilled node `F` for the C5 witness: complete, no edges. -/
def wF : BasicNode P := ⟨⟨"F", true⟩, [], [], []⟩

/-- Pending node `G` for the C5 witness: incomplete, no edges. -/
def wG : BasicNode P := ⟨⟨"G", false⟩, [], [], []⟩

/-- Node `A` for the C3 witness: complete, required by the absent `B`. -/
def lostA : BasicNode P := ⟨⟨"A", true⟩, [], ["B"], []⟩

/-- The C3 witness lattice: only `A`, pending. -/
def lostLattice : BasicLattice P := ⟨[("A", lostA)], []⟩

/-! ### Helper lemmas about the set and map primitives -/

theorem insertKey_mem_self (l : List String) (k : String) : k ∈ insertKey l k := by
  unfold insertKey
  split
  · assumption
  · simp

theorem removeKey?_of_mem {l : List String} {k : String} (h : k ∈ l) :
    removeKey? l k = some (l.erase k) := if_pos h

theorem removeKey?_of_not_mem {l : List String} {k : String} (h : k ∉ l) :
    removeKey? l k = none := if_neg h

theorem depend_fulfilled_of_not_mem {α : Type} (n : BasicNode α) (k : String)
    (h : k ∉ n.depends_on) : n.depend_fulfilled k = none := by
  unfold BasicNode.depend_fulfilled
  rw [removeKey?_of_not_mem h]

theorem depend_fulfilled_after_add {α : Type} (n : BasicNode α) (k : String) :
    ∃ n', (n.add_depends_on k).depend_fulfilled k = some n' := by
  unfold BasicNode.depend_fulfilled BasicNode.add_depends_on
  rw [removeKey?_of_mem (insertKey_mem_self n.depends_on k)]
  exact ⟨_, rfl⟩

theorem findA?_eq_none_iff {β : Type} (l : List (String × β)) (k : String) :
    findA? l k = none ↔ k ∉ l.map Prod.fst := by
  induction l with
  | nil => simp [findA?]
  | cons p rest ih =>
    obtain ⟨k', v⟩ := p
    by_cases h : k' = k
    · subst h
      simp [findA?]
    · simp [findA?, h, ih, Ne.symm h]

theorem mem_keys_of_findA? {β : Type} {l : List (String × β)} {k : String} {v : β}
    (h : findA? l k = some v) : k ∈ l.map Prod.fst := by
  by_contra hk
  rw [← findA?_eq_none_iff] at hk
  rw [h] at hk
  cases hk

theorem insertA_map_fst {β : Type} {l : List (String × β)} {k : String} (v : β)
    (h : k ∈ l.map Prod.fst) : (insertA l k v).map Prod.fst = l.map Prod.fst := by
  induction l with
  | nil => simp at h
  | cons p rest ih =>
    obtain ⟨k', v'⟩ := p
    by_cases hk : k' = k
    · subst hk
      simp [insertA]
    · simp only [insertA, beq_iff_eq, if_neg hk, List.map_cons]
      have hmem : k ∈ rest.map Prod.fst := by
        simpa [Ne.symm hk] using h
      rw [ih hmem]

theorem eraseA_keys_not_mem {β : Type} {l : List (String × β)} {k : String}
    (h : (l.map Prod.fst).Nodup) : k ∉ (eraseA l k).map Prod.fst := by
  induction l with
  | nil => simp [eraseA]
  | cons p rest ih =>
    obtain ⟨k', v⟩ := p
    simp only [List.map_cons, List.nodup_cons] at h
    by_cases hk : k' = k
    · subst hk
      simp only [eraseA, beq_self_eq_true, if_pos rfl]
      exact h.1
    · simp only [eraseA, beq_iff_eq, if_neg hk, List.map_cons, List.mem_cons]
      rintro (rfl | hmem)
      · exact hk rfl
      · exact ih h.2 hmem

theorem satisfyLoop_map_fst {α : Type} [NodeType α] (key : String) :
    ∀ (ord : List String) (p : List (String × BasicNode α)) (casc : List String),
      ((satisfyLoop key ord p casc).2.1).map Prod.fst = p.map Prod.fst := by
  intro ord
  induction ord with
  | nil => intro p casc; rfl
  | cons k rest ih =>
    intro p casc
    unfold satisfyLoop
    cases hf : findA? p k with
    | none => rfl
    | some x =>
      dsimp only
      cases hd : x.depend_fulfilled key with
      | none => rfl
      | some x' =>
        dsimp only
        rw [ih]
        exact insertA_map_fst x' (mem_keys_of_findA? hf)

theorem fulfillFuel_cons {α : Type} [NodeType α] (fuel : Nat) (m : BasicLattice α)
    (k : String) (rest : List String) :
    fulfillFuel (fuel + 1) m (k :: rest) =
      match fulfillStep m k with
      | (false, m1, _) => (false, m1)
      | (true, m1, casc) => fulfillFuel fuel m1 (casc ++ rest) := rfl

theorem addReqPhase2_no_unwrapFail {α : Type} [NodeType α]
    (m1 : BasicLattice α) (a b : String) (still : Bool) :
    (addReqPhase2 m1 a b still).1 ≠ AddOutcome.unwrapFail := by
  unfold addReqPhase2
  cases hp : findA? m1.pending a with
  | some req =>
    dsimp only
    obtain ⟨r, hr⟩ := depend_fulfilled_after_add req b
    cases still with
    | false =>
      rw [hr]
      simp
    | true => simp
  | none =>
    dsimp only
    cases still with
    | true =>
      cases hrm : removeA? m1.fulfilled a with
      | none => simp
      | some pr =>
        obtain ⟨req, ful1⟩ := pr
        simp
    | false =>
      cases hf : findA? m1.fulfilled a with
      | none => simp
      | some req =>
        dsimp only
        obtain ⟨r, hr⟩ := depend_fulfilled_after_add req b
        rw [hr]
        simp

/-! ### Claim theorems -/

/-- Theorem C1: in the reachable state `zaLattice` (bulk construction from
two consistent pending nodes), updating `A`'s payload to complete moves `A`
into `fulfilled` even though its `depends_on` set is still `{Z}`: the
claimed invariant — a node is in `fulfilled` iff `depends_on` is empty and
the payload is complete — fails on a reachable state. -/
theorem fulfilled_node_with_unmet_deps :
    zaUpdated.1 = true ∧
    findA? zaUpdated.2.fulfilled "A" = some ⟨⟨"A", true⟩, ["Z"], [], []⟩ ∧
    (⟨⟨"A", true⟩, ["Z"], [], []⟩ : BasicNode P).depends_on ≠ [] ∧
    findA? zaUpdated.2.pending "Z" = some zNode := by
  decide

/-- Theorem C2: `update_value` guards the `fulfill` call only on the payload
being complete, not on the node being ready-to-fulfill: on `zaLattice`,
node `A` is pending with `depends_on = {Z}`, yet updating its payload to a
complete one removes it from `pending` and files it in `fulfilled`, instead
of leaving it pending as the claim requires. -/
theorem update_value_fulfills_unready_node :
    (findA? zaLattice.pending "A").map BasicNode.depends_on = some ["Z"] ∧
    zaUpdated.1 = true ∧
    findA? zaUpdated.2.pending "A" = none ∧
    (findA? zaUpdated.2.fulfilled "A").isSome = true := by
  decide

/-- Theorem C3: when `fulfill` removes `key` from `pending` and the
`required_by` loop then fails (a dependent id absent from `pending`, or
`depend_fulfilled` erring on it), the call returns an error and `key` — not
yet inserted into `fulfilled` — is afterwards in neither collection. -/
theorem fulfill_midloop_failure_drops_node {α : Type} [NodeType α]
    (m : BasicLattice α) (key : String) (n : BasicNode α)
    (hnodup : (m.pending.map Prod.fst).Nodup)
    (hfind : findA? m.pending key = some n)
    (hnotful : findA? m.fulfilled key = none)
    (hfail : (fulfillStep m key).1 = false) :
    fulfill m key = (false, (fulfillStep m key).2.1) ∧
    findA? (fulfillStep m key).2.1.pending key = none ∧
    findA? (fulfillStep m key).2.1.fulfilled key = none := by
  have hrm : removeA? m.pending key = some (n, eraseA m.pending key) := by
    unfold removeA?
    rw [hfind]
  rcases hsl : satisfyLoop key n.required_by (eraseA m.pending key) [] with ⟨fl, p2, casc⟩
  have hstep : fulfillStep m key =
      match (fl, p2, casc) with
      | (false, q, _) => (false, (⟨q, m.fulfilled⟩ : BasicLattice α), [])
      | (true, q, c) => (true, ⟨q, insertA m.fulfilled key n⟩, c) := by
    unfold fulfillStep fulfillStepWith
    rw [hrm]
    dsimp only
    rw [hsl]
  cases fl with
  | true =>
    have hstep' : fulfillStep m key = (true, ⟨p2, insertA m.fulfilled key n⟩, casc) := hstep
    rw [hstep'] at hfail
    exact absurd hfail (by simp)
  | false =>
    have hstep' : fulfillStep m key = (false, ⟨p2, m.fulfilled⟩, []) := hstep
    have hkeys := satisfyLoop_map_fst key n.required_by (eraseA m.pending key) []
    rw [hsl] at hkeys
    refine ⟨?_, ?_, ?_⟩
    · unfold fulfill
      rw [fulfillFuel_cons, hstep']
    · rw [hstep']
      rw [findA?_eq_none_iff]
      dsimp only at hkeys ⊢
      rw [hkeys]
      exact eraseA_keys_not_mem hnodup
    · rw [hstep']
      exact hnotful

/-- Witness for C3: fulfilling `A`, whose `required_by` names the absent
`B`, errors and leaves `A` out of both collections. -/
theorem fulfill_midloop_failure_drops_node_witness :
    ((lostLattice.pending.map Prod.fst).Nodup ∧
      findA? lostLattice.pending "A" = some lostA ∧
      findA? lostLattice.fulfilled "A" = none ∧
      (fulfillStep lostLattice "A").1 = false) ∧
    (fulfill lostLattice "A" = (false, (fulfillStep lostLattice "A").2.1) ∧
      findA? (fulfillStep lostLattice "A").2.1.pending "A" = none ∧
      findA? (fulfillStep lostLattice "A").2.1.fulfilled "A" = none) :=
  ⟨⟨by decide, by decide, by decide, by decide⟩,
    fulfill_midloop_failure_drops_node lostLattice "A" lostA
      (by decide) (by decide) (by decide) (by decide)⟩

/-- Counterexample to C4 as stated: in the reachable state
`overlapLattice`, node `A`'s `depends_on` and `fulfilled_by` both contain
`B` — re-registering a dependency on an already-satisfied prerequisite
breaks the claimed disjointness. -/
theorem depends_on_fulfilled_by_overlap :
    findA? overlapLattice.pending "A" = some ⟨⟨"A", false⟩, ["B"], [], ["B"]⟩ ∧
    "B" ∈ (⟨⟨"A", false⟩, ["B"], [], ["B"]⟩ : BasicNode P).depends_on ∧
    "B" ∈ (⟨⟨"A", false⟩, ["B"], [], ["B"]⟩ : BasicNode P).fulfilled_by := by
  decide

/-- Theorem C4 (amended): a satisfaction event moves the identifier from
`depends_on` to `fulfilled_by`, and satisfying the same dependency again
without re-registering it is an error; the disjointness half of the claim
fails (see the counterexample). -/
theorem depend_fulfilled_moves_id_once {α : Type} (n n' : BasicNode α) (k : String)
    (hnd : n.depends_on.Nodup) (h : n.depend_fulfilled k = some n') :
    k ∉ n'.depends_on ∧ k ∈ n'.fulfilled_by ∧ n'.depend_fulfilled k = none := by
  unfold BasicNode.depend_fulfilled at h
  cases hr : removeKey? n.depends_on k with
  | none =>
    rw [hr] at h
    cases h
  | some d =>
    rw [hr] at h
    injection h with h
    subst h
    unfold removeKey? at hr
    split at hr
    · injection hr with hr
      subst hr
      have hne : k ∉ n.depends_on.erase k := hnd.not_mem_erase
      exact ⟨hne, insertKey_mem_self _ _, depend_fulfilled_of_not_mem _ _ hne⟩
    · cases hr

/-- Witness for C4: satisfying dependency `X` of a node moves `X` to
`fulfilled_by`, and a second satisfaction errors. -/
theorem depend_fulfilled_moves_id_once_witness :
    ((["X"] : List String).Nodup ∧
      BasicNode.depend_fulfilled (⟨⟨"N", false⟩, ["X"], [], []⟩ : BasicNode P) "X" =
        some ⟨⟨"N", false⟩, [], [], ["X"]⟩) ∧
    ("X" ∉ (⟨⟨"N", false⟩, [], [], ["X"]⟩ : BasicNode P).depends_on ∧
      "X" ∈ (⟨⟨"N", false⟩, [], [], ["X"]⟩ : BasicNode P).fulfilled_by ∧
      BasicNode.depend_fulfilled (⟨⟨"N", false⟩, [], [], ["X"]⟩ : BasicNode P) "X" = none) :=
  ⟨⟨by decide, by decide⟩,
    depend_fulfilled_moves_id_once (⟨⟨"N", false⟩, ["X"], [], []⟩ : BasicNode P)
      ⟨⟨"N", false⟩, [], [], ["X"]⟩ "X" (by decide) (by decide)⟩

/-- Theorem C5: the reopening round-trip.  With `F` fulfilled (complete, no
edges yet) and `G` pending, `add_requirement F G` succeeds, reopens `F`
into `pending` with `depends_on = {G}`, and records `F` in `G`'s
`required_by`; a subsequent successful `fulfill G` moves `F` back into
`fulfilled` with `G` in its `fulfilled_by`. -/
theorem add_requirement_reopening_roundtrip
    (nF nG : BasicNode P)
    (hFu : nF.uuid = "F") (hGu : nG.uuid = "G")
    (hFd : nF.depends_on = []) (hFr : nF.required_by = [])
    (hFc : nF.is_completed = true) (hGr : nG.required_by = []) :
    ((add_requirement (⟨[("G", nG)], [("F", nF)]⟩ : BasicLattice P) "F" "G").1 =
        AddOutcome.ok ∧
      (∃ nf,
        findA? (add_requirement (⟨[("G", nG)], [("F", nF)]⟩ : BasicLattice P) "F" "G").2.pending
            "F" = some nf ∧
          nf.depends_on = ["G"]) ∧
      (∃ ng,
        findA? (add_requirement (⟨[("G", nG)], [("F", nF)]⟩ : BasicLattice P) "F" "G").2.pending
            "G" = some ng ∧
          "F" ∈ ng.required_by) ∧
      findA? (add_requirement (⟨[("G", nG)], [("F", nF)]⟩ : BasicLattice P) "F" "G").2.fulfilled
          "F" = none) ∧
    ((fulfill (add_requirement (⟨[("G", nG)], [("F", nF)]⟩ : BasicLattice P) "F" "G").2 "G").1 =
        true ∧
      (∃ nf2,
        findA?
            (fulfill (add_requirement (⟨[("G", nG)], [("F", nF)]⟩ : BasicLattice P) "F" "G").2
                "G").2.fulfilled "F" = some nf2 ∧
          "G" ∈ nf2.fulfilled_by) ∧
      findA?
          (fulfill (add_requirement (⟨[("G", nG)], [("F", nF)]⟩ : BasicLattice P) "F" "G").2
              "G").2.pending "F" = none) := by
  obtain ⟨⟨sF, bF⟩, dF, rF, fF⟩ := nF
  obtain ⟨⟨sG, bG⟩, dG, rG, fG⟩ := nG
  have hsF : sF = "F" := hFu
  have hbF : bF = true := hFc
  have hdF : dF = [] := hFd
  have hrF : rF = [] := hFr
  have hsG : sG = "G" := hGu
  have hrG : rG = [] := hGr
  subst hsF hbF hdF hrF hsG hrG
  refine ⟨⟨rfl, ⟨_, rfl, rfl⟩, ⟨_, rfl, ?_⟩, rfl⟩, rfl, ⟨_, rfl, ?_⟩, rfl⟩
  · exact insertKey_mem_self [] "F"
  · exact insertKey_mem_self fF "G"

/-- Witness for C5: the round-trip run on the concrete nodes `wF`, `wG`. -/
theorem add_requirement_reopening_roundtrip_witness :
    (wF.uuid = "F" ∧ wG.uuid = "G" ∧ wF.depends_on = [] ∧ wF.required_by = [] ∧
      wF.is_completed = true ∧ wG.required_by = []) ∧
    (((add_requirement (⟨[("G", wG)], [("F", wF)]⟩ : BasicLattice P) "F" "G").1 =
        AddOutcome.ok ∧
      (∃ nf,
        findA? (add_requirement (⟨[("G", wG)], [("F", wF)]⟩ : BasicLattice P) "F" "G").2.pending
            "F" = some nf ∧
          nf.depends_on = ["G"]) ∧
      (∃ ng,
        findA? (add_requirement (⟨[("G", wG)], [("F", wF)]⟩ : BasicLattice P) "F" "G").2.pending
            "G" = some ng ∧
          "F" ∈ ng.required_by) ∧
      findA? (add_requirement (⟨[("G", wG)], [("F", wF)]⟩ : BasicLattice P) "F" "G").2.fulfilled
          "F" = none) ∧
    ((fulfill (add_requirement (⟨[("G", wG)], [("F", wF)]⟩ : BasicLattice P) "F" "G").2 "G").1 =
        true ∧
      (∃ nf2,
        findA?
            (fulfill (add_requirement (⟨[("G", wG)], [("F", wF)]⟩ : BasicLattice P) "F" "G").2
                "G").2.fulfilled "F" = some nf2 ∧
          "G" ∈ nf2.fulfilled_by) ∧
      findA?
          (fulfill (add_requirement (⟨[("G", wG)], [("F", wF)]⟩ : BasicLattice P) "F" "G").2
              "G").2.pending "F" = none)) :=
  ⟨⟨rfl, rfl, rfl, rfl, rfl, rfl⟩,
    add_requirement_reopening_roundtrip wF wG rfl rfl rfl rfl rfl rfl⟩

/-- Counterexample to C6 as stated: in a lattice where pending `B` depends
solely on `A` and pending `C` depends solely on `B` (back-edges present),
`fulfill "A"` succeeds but leaves `B` (and `C`) in `pending`, because `B`'s
payload is incomplete — the claim omits the payload-completeness premise. -/
theorem cascade_stops_at_incomplete_payload :
    (fulfill chainLattice "A").1 = true ∧
    chainB.depends_on = ["A"] ∧ chainC.depends_on = ["B"] ∧
    chainA.required_by = ["B"] ∧ chainB.required_by = ["C"] ∧
    findA? (fulfill chainLattice "A").2.fulfilled "B" = none ∧
    findA? (fulfill chainLattice "A").2.fulfilled "C" = none ∧
    (findA? (fulfill chainLattice "A").2.pending "B").isSome = true ∧
    (findA? (fulfill chainLattice "A").2.pending "C").isSome = true := by
  decide

/-- Theorem C6 (amended): when pending `B` depends solely on `A` and pending
`C` depends solely on `B`, with the matching back-edges and with `B`'s and
`C`'s payloads complete, a single `fulfill "A"` transitively moves both `B`
and `C` into `fulfilled` with no further calls. -/
theorem cascade_completes_chain :
    (fulfill chainLattice' "A").1 = true ∧
    (findA? (fulfill chainLattice' "A").2.fulfilled "A").isSome = true ∧
    (findA? (fulfill chainLattice' "A").2.fulfilled "B").isSome = true ∧
    (findA? (fulfill chainLattice' "A").2.fulfilled "C").isSome = true ∧
    (fulfill chainLattice' "A").2.pending = [] := by
  decide

/-- Theorem C7: the cascade step of `fulfill` is order-sensitive.  The two
enumerations `[B, C]` and `[C, B]` of the same `required_by` set of `A`
leave `forkLattice` in different states (the failing lookup of `B` aborts
before or after `C`'s dependency is satisfied).  The Rust source iterates
`required_by` as a `std::collections::HashMap`, whose order is unspecified,
so two runs on equal lattice states need not visit dependents in the same
order nor produce the same final state. -/
theorem fulfill_cascade_order_sensitive :
    (["C", "B"] : List String).Perm ["B", "C"] ∧
    forkA.required_by = ["B", "C"] ∧
    fulfillStep forkLattice "A" = fulfillStepWith (fun t => t.required_by) forkLattice "A" ∧
    fulfillStepWith (fun _ => ["B", "C"]) forkLattice "A" ≠
      fulfillStepWith (fun _ => ["C", "B"]) forkLattice "A" := by
  decide

/-- Theorem C8: `fulfill` on an id absent from `pending` — including ids
already in `fulfilled` and unknown ids — returns an error and leaves the
lattice (both collections) unchanged. -/
theorem fulfill_absent_key_errors_unchanged {α : Type} [NodeType α]
    (m : BasicLattice α) (key : String) (h : findA? m.pending key = none) :
    fulfill m key = (false, m) := by
  unfold fulfill
  rw [fulfillFuel_cons]
  have hstep : fulfillStep m key = (false, m, []) := by
    unfold fulfillStep fulfillStepWith removeA?
    rw [h]
  rw [hstep]

/-- Witness for C8: a lattice whose `fulfilled` collection holds `B` and
whose `pending` collection does not; `fulfill "B"` errors and changes
nothing. -/
theorem fulfill_absent_key_errors_unchanged_witness :
    findA? (⟨[("A", aNode)], [("B", ⟨⟨"B", true⟩, [], [], []⟩)]⟩ :
        BasicLattice P).pending "B" = none ∧
    fulfill (⟨[("A", aNode)], [("B", ⟨⟨"B", true⟩, [], [], []⟩)]⟩ :
        BasicLattice P) "B" =
      (false, ⟨[("A", aNode)], [("B", ⟨⟨"B", true⟩, [], [], []⟩)]⟩) :=
  ⟨by decide, fulfill_absent_key_errors_unchanged _ "B" (by decide)⟩

/-- Theorem C9: `from_node_list` has no error outcome (its codomain is a
lattice, mirroring the Rust signature), yet the settling `fulfill` call it
makes on `X` fails — `X`'s `required_by` points at the absent `Y` — and the
failure is silent: construction returns the partially-settled state the
failed cascade produced, here a lattice that has lost `X` entirely. -/
theorem from_node_list_discards_fulfill_errors :
    from_node_list [xNode] = (⟨[], []⟩ : BasicLattice P) ∧
    (fulfill (⟨[("X", xNode)], []⟩ : BasicLattice P) "X").1 = false ∧
    findA? (fulfill (⟨[("X", xNode)], []⟩ : BasicLattice P) "X").2.pending "X" = none ∧
    findA? (fulfill (⟨[("X", xNode)], []⟩ : BasicLattice P) "X").2.fulfilled "X" = none := by
  decide

/-- Theorem C10: the two `.unwrap()` sites inside `add_requirement` are
unreachable in their error form: whenever `depend_fulfilled` is invoked
there, the prerequisite id was inserted into the requirer's `depends_on`
immediately beforehand, so the call returns `Ok` and the modelled
`unwrapFail` outcome never occurs, for any lattice and any pair of ids. -/
theorem add_requirement_unwrap_never_fails {α : Type} [NodeType α]
    (m : BasicLattice α) (a b : String) :
    (add_requirement m a b).1 ≠ AddOutcome.unwrapFail := by
  unfold add_requirement
  cases h1 : findA? m.pending b with
  | some isReq => exact addReqPhase2_no_unwrapFail _ _ _ _
  | none =>
    dsimp only
    cases h2 : findA? m.fulfilled b with
    | none => simp
    | some isReq => exact addReqPhase2_no_unwrapFail _ _ _ _

end LatticeMachines
